import Mathlib

/-!
Verification of the asynchronous Live2D asset-loading core.

This file shallowly embeds the load-pipeline state machine of
`LAppModel.ts`, the WAV parser and envelope decoder of
`LAppWavFileHandler` (src/unnamed/part_001), the texture cache of
`LAppTextureManager.ts` and the pointer handling and scene management of
`LAppLive2DManager.ts`, and proves or refutes the specified properties.

Machine-number conventions: JavaScript numbers are embedded as exact
rationals; 32-bit bitwise results (`|`, `<<`) are taken modulo 2^32 with
two's-complement sign, as in JS.  The one place where a non-finite float
value is produced and observed (the RMS division and square root in the
envelope decoder) is tracked exactly by the type `JsF` below.
-/

namespace Live2d

/-- Two's-complement reading of a machine word modulo 2^32, the value a
JavaScript bitwise operator yields. -/
def asInt32 (n : ℕ) : ℤ :=
  let m : ℕ := n % 2 ^ 32
  if m < 2 ^ 31 then (m : ℤ) else (m : ℤ) - 2 ^ 32

/-- JavaScript 32-bit left shift `x << k`: reduce to a 32-bit unsigned
word, shift, reduce again, read as signed. -/
def shl32 (x : ℤ) (k : ℕ) : ℤ :=
  asInt32 ((x.emod (2 ^ 32)).toNat * 2 ^ k)

/-- An `ArrayBuffer`: a list of bytes. -/
abbrev Buf := List ℕ

/-- `DataView.getUint8`: an out-of-range access throws a `RangeError`,
modelled as `none`. -/
def getUint8 (buf : Buf) (off : ℤ) : Option ℕ :=
  if 0 ≤ off ∧ off < (buf.length : ℤ) then some (buf.getD off.toNat 0) else none

/-- `ByteReader.get8`: one byte, advancing the read offset. -/
def get8 (buf : Buf) (off : ℤ) : Option (ℕ × ℤ) :=
  (getUint8 buf off).map (fun b => (b, off + 1))

/-- `ByteReader.get16LittleEndian`: a thrown read anywhere aborts with
`none`, as in the source where any out-of-range `getUint8` throws. -/
def get16LittleEndian (buf : Buf) (off : ℤ) : Option (ℕ × ℤ) :=
  match getUint8 buf (off + 1), getUint8 buf off with
  | some b1, some b0 => some (b1 * 2 ^ 8 + b0, off + 2)
  | _, _ => none

/-- `ByteReader.get24LittleEndian`. -/
def get24LittleEndian (buf : Buf) (off : ℤ) : Option (ℕ × ℤ) :=
  match getUint8 buf (off + 2), getUint8 buf (off + 1), getUint8 buf off with
  | some b2, some b1, some b0 => some (b2 * 2 ^ 16 + b1 * 2 ^ 8 + b0, off + 3)
  | _, _, _ => none

/-- `ByteReader.get32LittleEndian`: the source combines the bytes with
`<< 24 | << 16 | << 8 |`, so the result is a signed 32-bit value. -/
def get32LittleEndian (buf : Buf) (off : ℤ) : Option (ℤ × ℤ) :=
  match getUint8 buf (off + 3), getUint8 buf (off + 2),
      getUint8 buf (off + 1), getUint8 buf off with
  | some b3, some b2, some b1, some b0 =>
    some (asInt32 (b3 * 2 ^ 24 + b2 * 2 ^ 16 + b1 * 2 ^ 8 + b0), off + 4)
  | _, _, _, _ => none

/-- `ByteReader.getCheckSignature`: read four bytes and compare them with
the four reference bytes, advancing the offset by 4 (every reference
used has length 4, so the early length check of the source never
fires). -/
def getCheckSignature (buf : Buf) (off : ℤ) (ref : List ℕ) : Option (Bool × ℤ) :=
  match getUint8 buf off, getUint8 buf (off + 1),
      getUint8 buf (off + 2), getUint8 buf (off + 3) with
  | some b0, some b1, some b2, some b3 =>
    some (decide ([b0, b1, b2, b3] = ref), off + 4)
  | _, _, _, _ => none

/-- Reference bytes of the RIFF signature. -/
def riffSig : List ℕ := [82, 73, 70, 70]

/-- Reference bytes of the WAVE signature. -/
def waveSig : List ℕ := [87, 65, 86, 69]

/-- Reference bytes of the fmt chunk signature. -/
def fmtSig : List ℕ := [102, 109, 116, 32]

/-- Reference bytes of the data chunk signature. -/
def dataSig : List ℕ := [100, 97, 116, 97]

/-- `LAppWavFileHandler.getPcmSample`: decode one PCM sample at the given
read offset for the given bit depth, returning the normalized value and
the advanced offset.  `none` models a thrown `RangeError`. -/
def getPcmSample (bits : ℕ) (buf : Buf) (off : ℤ) : Option (ℚ × ℤ) :=
  if bits = 8 then
    (get8 buf off).map
      (fun p => ((shl32 ((p.1 : ℤ) - 128) 24 : ℚ) / 2147483647, p.2))
  else if bits = 16 then
    (get16LittleEndian buf off).map
      (fun p => ((shl32 (p.1 : ℤ) 16 : ℚ) / 2147483647, p.2))
  else if bits = 24 then
    (get24LittleEndian buf off).map
      (fun p => ((shl32 (p.1 : ℤ) 8 : ℚ) / 2147483647, p.2))
  else some ((0 : ℚ) / 2147483647, off)

/-- Outcomes that abort `loadWavFile`: a thrown `RangeError` (caught by
the surrounding try, so the caller sees `false`), an explicit
`return false`, or a scan loop that never terminates. -/
inductive PFail where
  | thrown
  | failed
  | diverge
  deriving Repr, DecidableEq

/-- Lift a reader result into the parser monad: a reader `none` is a
thrown `RangeError`. -/
def liftRd {α : Type} : Option α → Except PFail α
  | none => Except.error PFail.thrown
  | some a => Except.ok a

/-- The data-chunk scan loop of `loadWavFile`:

    while (!getCheckSignature(data) && readOffset < fileSize)
      readOffset += get32LittleEndian() + 4;

The compound assignment captures the old offset before `get32` advances
it, so a non-matching chunk is skipped by 4 identifier bytes plus 4 size
bytes plus the declared size (read as a signed 32-bit value).  The result
is the offset at loop exit.  `fuel` bounds the number of iterations; an
exhausted fuel models a scan that runs forever. -/
def scanData (buf : Buf) : ℕ → ℤ → Except PFail ℤ
  | 0, _ => Except.error PFail.diverge
  | fuel + 1, off =>
    match getCheckSignature buf off dataSig with
    | none => Except.error PFail.thrown
    | some (found, off1) =>
      if found then Except.ok off1
      else if off1 < (buf.length : ℤ) then
        match get32LittleEndian buf off1 with
        | none => Except.error PFail.thrown
        | some (size, _) => scanData buf fuel (off1 + size + 4)
      else Except.ok off1

/-- A successfully parsed WAV clip: the fields of `WavFileInfo` together
with the decoded per-channel PCM data. -/
structure WavClip where
  numberOfChannels : ℕ
  samplingRate : ℤ
  bitsPerSample : ℕ
  dataChunkSize : ℤ
  pcmData : List (List ℚ)
  deriving Repr, DecidableEq

/-- The interleaved sample-reading loop of `loadWavFile`: `count`
sequential `getPcmSample` reads (sample-major, channel-minor). -/
def readPcmLoop (bits : ℕ) (buf : Buf) : ℕ → ℤ → Option (List ℚ × ℤ)
  | 0, off => some ([], off)
  | n + 1, off => do
    let p ← getPcmSample bits buf off
    let rest ← readPcmLoop bits buf n p.2
    pure (p.1 :: rest.1, rest.2)

/-- Distribute the flat read order into per-channel arrays: channel `c`
holds the reads at positions `s * channels + c`, matching the fill
`pcmData[channelCount][sampleCount]`. -/
def deinterleave (flat : List ℚ) (channels spc : ℕ) : List (List ℚ) :=
  (List.range channels).map
    (fun c => (List.range spc).map (fun s1 => flat.getD (s1 * channels + c) 0))

/-- The RIFF, WAVE and fmt header portion of `loadWavFile`, yielding the
channel count, sampling rate, bit depth and the read offset after the
possible extended-format skip (`fmtChunkSize - 16`). -/
def parseHeader (buf : Buf) : Except PFail (ℕ × ℤ × ℕ × ℤ) := do
  if (buf.length : ℤ) < 4 then throw PFail.failed
  let s1 ← liftRd (getCheckSignature buf 0 riffSig)
  if ¬ s1.1 then throw PFail.failed
  let r1 ← liftRd (get32LittleEndian buf s1.2)
  let s2 ← liftRd (getCheckSignature buf r1.2 waveSig)
  if ¬ s2.1 then throw PFail.failed
  let s3 ← liftRd (getCheckSignature buf s2.2 fmtSig)
  if ¬ s3.1 then throw PFail.failed
  let fmtSize ← liftRd (get32LittleEndian buf s3.2)
  let audioFmt ← liftRd (get16LittleEndian buf fmtSize.2)
  if audioFmt.1 ≠ 1 then throw PFail.failed
  let channels ← liftRd (get16LittleEndian buf audioFmt.2)
  let rate ← liftRd (get32LittleEndian buf channels.2)
  let byteRate ← liftRd (get32LittleEndian buf rate.2)
  let blockAlign ← liftRd (get16LittleEndian buf byteRate.2)
  let bits ← liftRd (get16LittleEndian buf blockAlign.2)
  let off0 : ℤ := if fmtSize.1 > 16 then bits.2 + (fmtSize.1 - 16) else bits.2
  pure (channels.1, rate.1, bits.1, off0)

/-- Reading of the data chunk once the scan has stopped at `offData`
(the size field position).  The JavaScript division
`dataChunkSize*8 / (bits*channels)` and the subsequent allocations are
embedded exactly:

* channels ≥ 1: `new Float32Array(samplesPerChannel)` throws unless the
  quotient is a nonnegative integer, so a fractional, negative or
  non-finite quotient yields `false`; otherwise the sample loop runs
  `samplesPerChannel` times per channel;
* channels = 0: no per-channel allocation happens; the sample loop runs
  zero times when the quotient is NaN (0/0) or negative-infinite and
  forever when it is positive-infinite (`diverge`).

A failed parse leaves a partially written handler state that nothing in
the repository observes; the embedding therefore only records the
failure. -/
def parseData (buf : Buf) (channels : ℕ) (rate : ℤ) (bits : ℕ) (offData : ℤ) :
    Except PFail WavClip := do
  let dataSize ← liftRd (get32LittleEndian buf offData)
  let num : ℤ := dataSize.1 * 8
  let den : ℕ := bits * channels
  if channels = 0 then
    if num = 0 ∨ num < 0 then
      pure ⟨0, rate, bits, dataSize.1, []⟩
    else throw PFail.diverge
  else
    if den ≠ 0 ∧ (den : ℤ) ∣ num ∧ 0 ≤ num then
      let spc : ℕ := (num / (den : ℤ)).toNat
      let flat ← liftRd (readPcmLoop bits buf (spc * channels) dataSize.2)
      pure ⟨channels, rate, bits, dataSize.1, deinterleave flat.1 channels spc⟩
    else throw PFail.failed

/-- `LAppWavFileHandler.loadWavFile` after the fetch has delivered the
byte buffer: header parse, data-chunk scan, end-of-buffer check, data
read. -/
def parseWavE (buf : Buf) (fuel : ℕ) : Except PFail WavClip :=
  match parseHeader buf with
  | Except.error e => Except.error e
  | Except.ok hd =>
    match scanData buf fuel hd.2.2.2 with
    | Except.error e => Except.error e
    | Except.ok offData =>
      if offData ≥ (buf.length : ℤ) then Except.error PFail.failed
      else parseData buf hd.1 hd.2.1 hd.2.2.1 offData

/-- `loadWavFile` as the caller sees it: `none` when the parse never
terminates, otherwise `some` of the returned clip (`none` inside for a
`false` return). -/
def loadWavFile (buf : Buf) (fuel : ℕ) : Option (Option WavClip) :=
  match parseWavE buf fuel with
  | Except.error PFail.diverge => none
  | Except.error PFail.thrown => some none
  | Except.error PFail.failed => some none
  | Except.ok c => some (some c)

/-- The float stored in `_lastRms`: either NaN, positive infinity, or the
nonnegative square root of a recorded rational (the plain value 0.0 is
`sqrtOf 0`, the exact square root of zero). -/
inductive JsF where
  | nan
  | posInf
  | sqrtOf (q : ℚ)
  deriving Repr, DecidableEq

/-- The division-then-square-root `Math.sqrt(sum / den)` at the end of
`LAppWavFileHandler.update`, with JavaScript semantics: `0/0` is NaN,
a positive value over zero is infinite, the square root of a negative
quotient is NaN, and the square root of negative zero is zero. -/
def rmsDivSqrt (sum den : ℚ) : JsF :=
  if den = 0 then (if sum = 0 then JsF.nan else JsF.posInf)
  else if sum / den < 0 then JsF.nan
  else JsF.sqrtOf (sum / den)

/-- The mutable state of an `LAppWavFileHandler` (the `_wavFileInfo`
fields inlined; the file name is dropped).  Numeric fields are exact
rationals. -/
structure WavState where
  pcmData : Option (List (List ℚ))
  userTimeSeconds : ℚ
  lastRms : JsF
  sampleOffset : ℚ
  numberOfChannels : ℕ
  bitsPerSample : ℕ
  samplingRate : ℚ
  samplesPerChannel : ℚ
  deriving Repr, DecidableEq

/-- The inner double loop of `update`: sum of `pcm * pcm` over every
channel index below `channels` and every sample position from `off`
(inclusive) up to `goal` (exclusive), each read via the JS array
indexing of `_pcmData[channel][sample]`.  Positions a well-formed state
never produces (fractional or out-of-range indices) read as 0; no
theorem below exercises them. -/
def windowSumSq (data : List (List ℚ)) (channels : ℕ) (off goal : ℚ) : ℚ :=
  ((List.range channels).map (fun c =>
    ((List.range (⌈goal - off⌉ : ℤ).toNat).map (fun k : ℕ =>
      let v := (data.getD c []).getD (⌊off + (k : ℚ)⌋ : ℤ).toNat 0
      v * v)).sum)).sum

/-- `LAppWavFileHandler.update`: advance the envelope by `dt` elapsed
seconds, returning the new state and the boolean result. -/
def update (s : WavState) (dt : ℚ) : WavState × Bool :=
  if s.pcmData = none ∨ s.sampleOffset ≥ s.samplesPerChannel then
    ({ s with lastRms := JsF.sqrtOf 0 }, false)
  else
    let data := s.pcmData.getD []
    let t := s.userTimeSeconds + dt
    let goal0 : ℚ := (⌊t * s.samplingRate⌋ : ℤ)
    let goal : ℚ := if goal0 > s.samplesPerChannel then s.samplesPerChannel else goal0
    let sum := windowSumSq data s.numberOfChannels s.sampleOffset goal
    let den : ℚ := (s.numberOfChannels : ℚ) * (goal - s.sampleOffset)
    ({ s with userTimeSeconds := t, lastRms := rmsDivSqrt sum den,
              sampleOffset := goal }, true)

/-- `LAppWavFileHandler.getRms`. -/
def getRms (s : WavState) : JsF := s.lastRms

/-- The handler state right after `start` has reset the offsets and
`loadWavFile` has delivered the given clip. -/
def stateOfClip (c : WavClip) : WavState :=
  { pcmData := some c.pcmData
    userTimeSeconds := 0
    lastRms := JsF.sqrtOf 0
    sampleOffset := 0
    numberOfChannels := c.numberOfChannels
    bitsPerSample := c.bitsPerSample
    samplingRate := (c.samplingRate : ℚ)
    samplesPerChannel := ((c.dataChunkSize * 8 : ℤ) : ℚ) /
      ((c.bitsPerSample * c.numberOfChannels : ℕ) : ℚ) }

/-- The four bytes at position `i` of the buffer spell the data chunk
signature. -/
def HasDataSigAt (buf : Buf) (i : ℕ) : Prop :=
  i + 4 ≤ buf.length ∧
    [buf.getD i 0, buf.getD (i + 1) 0, buf.getD (i + 2) 0,
      buf.getD (i + 3) 0] = dataSig

instance (buf : Buf) (i : ℕ) : Decidable (HasDataSigAt buf i) := by
  unfold HasDataSigAt; infer_instance

/-- No data chunk signature occurs anywhere in the buffer (positions at
or beyond the end trivially carry none). -/
def NoDataSig (buf : Buf) : Prop := ∀ i < buf.length, ¬ HasDataSigAt buf i

instance (buf : Buf) : Decidable (NoDataSig buf) := by
  unfold NoDataSig; infer_instance

/-- The parse never returns, whatever iteration bound the fuel grants:
the scan loop runs forever on this buffer. -/
def ParseRunsForever (buf : Buf) : Prop := ∀ fuel, loadWavFile buf fuel = none

/-- A buffer with a well-formed RIFF/WAVE/fmt header followed by a chunk
whose identifier is not data and whose declared size field decodes to
the signed 32-bit value -8, so that the scan loop re-reads the same
chunk forever. -/
def bufLoop : Buf :=
  [82, 73, 70, 70, 0, 0, 0, 0, 87, 65, 86, 69, 102, 109, 116, 32,
   16, 0, 0, 0, 1, 0, 1, 0, 1, 0, 0, 0, 2, 0, 0, 0, 2, 0, 16, 0,
   97, 98, 99, 100, 248, 255, 255, 255]

/-- Specification-side sum of squares of the envelope window: for each
channel, the squares of the samples from position `off` (inclusive) to
`goal` (exclusive), written with `drop` and `take` independently of the
counter loop of the implementation. -/
def specSumSq (data : List (List ℚ)) (off goal : ℕ) : ℚ :=
  (data.map (fun ch =>
    (((ch.drop off).take (goal - off)).map (fun v => v * v)).sum)).sum

/-- A minimal well-formed WAV buffer: 16-bit mono linear PCM, sampling
rate 1, one sample (the bytes 00 40). -/
def bufOk : Buf :=
  [82, 73, 70, 70, 0, 0, 0, 0, 87, 65, 86, 69, 102, 109, 116, 32,
   16, 0, 0, 0, 1, 0, 1, 0, 1, 0, 0, 0, 2, 0, 0, 0, 2, 0, 16, 0,
   100, 97, 116, 97, 2, 0, 0, 0, 0, 64]

/-- The clip `loadWavFile` decodes from `bufOk`. -/
def wavClipOk : WavClip :=
  ⟨1, 1, 16, 2, [[(1073741824 : ℚ) / 2147483647]]⟩

/-- The handler state `stateOfClip wavClipOk` written out field by
field. -/
def wavSOk : WavState :=
  { pcmData := some [[(1073741824 : ℚ) / 2147483647]]
    userTimeSeconds := 0
    lastRms := JsF.sqrtOf 0
    sampleOffset := 0
    numberOfChannels := 1
    bitsPerSample := 16
    samplingRate := 1
    samplesPerChannel := 1 }

/-- A concrete loaded one-sample handler state used as witness input. -/
def wavS1 : WavState :=
  { pcmData := some [[(1 : ℚ) / 2]]
    userTimeSeconds := 0
    lastRms := JsF.sqrtOf 0
    sampleOffset := 0
    numberOfChannels := 1
    bitsPerSample := 16
    samplingRate := 1
    samplesPerChannel := 1 }

/-! ### The model load pipeline of LAppModel.ts -/

/-- `LoadStep` of LAppModel.ts, verbatim. -/
inductive LoadStep where
  | LoadAssets
  | LoadModel
  | WaitLoadModel
  | LoadExpression
  | WaitLoadExpression
  | LoadPhysics
  | WaitLoadPhysics
  | LoadPose
  | WaitLoadPose
  | SetupEyeBlink
  | SetupBreath
  | LoadUserData
  | WaitLoadUserData
  | SetupEyeBlinkIds
  | SetupLipSyncIds
  | SetupLayout
  | LoadMotion
  | WaitLoadMotion
  | CompleteInitialize
  | CompleteSetupModel
  | LoadTexture
  | WaitLoadTexture
  | CompleteSetup
  deriving Repr, DecidableEq

/-- The fields of the parsed `ICubismModelSetting` that the pipeline
reads: rig binary name, expression names, optional physics, pose and
user-data files, motion groups with their motion counts, and texture
file names. -/
structure ModelSetting where
  modelFileName : String
  expressionNames : List String
  physicsFileName : String
  poseFileName : String
  userDataFile : String
  motionGroups : List (String × ℕ)
  textureFiles : List String
  deriving Repr, DecidableEq

/-- Identity of an in-flight asynchronous completion: which fetch (or
image decode, for textures) callback is pending. -/
inductive Pending where
  | manifest
  | modelFile
  | expr (i : ℕ)
  | physics
  | pose
  | userData
  | motion (g : String) (i : ℕ)
  | texture (i : ℕ)
  deriving Repr, DecidableEq

/-- Outcome of an asynchronous fetch: the promise rejects (network
error), resolves with a non-OK response, or resolves OK carrying
content that the external engine either accepts (`valid`) or rejects
(for motions and expressions, `loadMotion`/`loadExpression` return
null on unusable bytes; an empty buffer is always unusable). -/
inductive FetchOutcome where
  | rejected
  | nonOk
  | ok (valid : Bool)
  deriving Repr, DecidableEq

/-- The mutable pipeline state of one `LAppModel`: the load step, the
expression and motion maps (name to whether the stored entry is a
non-null motion), the fan-in counters, the `_updating`/`_initialized`
flags, whether the engine created a model matrix when `loadModel` ran
(the external engine leaves `_modelMatrix` null when the rig buffer is
empty or unusable), the in-flight callbacks, and the logged error
messages (debug prints are not tracked). -/
structure PipelineState where
  state : LoadStep
  expressions : List (String × Bool)
  motions : List (String × Bool)
  expressionCount : ℕ
  textureCount : ℕ
  motionCount : ℕ
  allMotionCount : ℤ
  modelMatrixPresent : Bool
  updating : Bool
  initialized : Bool
  pending : List Pending
  logs : List String
  deriving Repr, DecidableEq

/-- `csmMap.setValue`: overwrite the entry when the key exists,
otherwise append it.  The source first overwrites an existing non-null
entry with null and then stores the new value; the net effect is the
same single update. -/
def setValue (m : List (String × Bool)) (k : String) (v : Bool) :
    List (String × Bool) :=
  if m.any (fun p => p.1 == k) then
    m.map (fun p => if p.1 = k then (k, v) else p)
  else m ++ [(k, v)]

/-- `LAppModel.setupTextures`: when entered in the `LoadTexture` step,
issue one texture-cache acquire per non-empty texture file name and move
to `WaitLoadTexture`.  With zero textures nothing is issued and no
callback can ever advance the state further. -/
def setupTextures (st : ModelSetting) (s : PipelineState) : PipelineState :=
  if s.state = LoadStep.LoadTexture then
    { s with
      pending := s.pending ++ (List.range st.textureFiles.length).filterMap
        (fun i => if st.textureFiles.getD i "" = "" then none
                  else some (Pending.texture i)),
      state := LoadStep.WaitLoadTexture }
  else s

/-- `LAppModel.loadCubismMotion`: set `WaitLoadMotion`, reset the
counters, count all motions of all groups into `_allMotionCount`, issue
every motion fetch (`preLoadMotionGroup`), and — when there are no
motion groups at all — complete initialization immediately and fall
through to the texture stage. -/
def loadCubismMotion (st : ModelSetting) (s : PipelineState) : PipelineState :=
  let s1 := { s with
    state := LoadStep.WaitLoadMotion,
    allMotionCount := ((st.motionGroups.map Prod.snd).sum : ℕ),
    motionCount := 0,
    pending := s.pending ++ st.motionGroups.flatMap
      (fun g => (List.range g.2).map (fun i => Pending.motion g.1 i)) }
  if st.motionGroups.length = 0 then
    setupTextures st
      { s1 with state := LoadStep.LoadTexture, updating := false,
                initialized := true }
  else s1

/-- `LAppModel.setupLayout`: when the engine never produced a model
matrix (unusable rig buffer) the layout step logs an error and returns,
leaving the pipeline in `SetupLayout` forever; otherwise continue into
the motion stage. -/
def setupLayout (st : ModelSetting) (s : PipelineState) : PipelineState :=
  if s.modelMatrixPresent = false then
    { s with logs := s.logs ++ ["Failed to setupLayout()."] }
  else
    loadCubismMotion st { s with state := LoadStep.LoadMotion }

/-- `LAppModel.setupLipSyncIds` (the id vector lives in the engine). -/
def setupLipSyncIds (st : ModelSetting) (s : PipelineState) : PipelineState :=
  setupLayout st { s with state := LoadStep.SetupLayout }

/-- `LAppModel.setupEyeBlinkIds`. -/
def setupEyeBlinkIds (st : ModelSetting) (s : PipelineState) : PipelineState :=
  setupLipSyncIds st { s with state := LoadStep.SetupLipSyncIds }

/-- `LAppModel.loadUserDataFile`: fetch the user-data file when one is
named, otherwise skip straight on. -/
def loadUserDataFile (st : ModelSetting) (s : PipelineState) : PipelineState :=
  if st.userDataFile ≠ "" then
    { s with pending := s.pending ++ [Pending.userData],
             state := LoadStep.WaitLoadUserData }
  else
    setupEyeBlinkIds st { s with state := LoadStep.SetupEyeBlinkIds }

/-- `LAppModel.setupBreath` (breath parameters live in the engine). -/
def setupBreath (st : ModelSetting) (s : PipelineState) : PipelineState :=
  loadUserDataFile st { s with state := LoadStep.LoadUserData }

/-- `LAppModel.setupEyeBlink` (the blink object lives in the engine). -/
def setupEyeBlink (st : ModelSetting) (s : PipelineState) : PipelineState :=
  setupBreath st s

/-- `LAppModel.loadCubismPose`. -/
def loadCubismPose (st : ModelSetting) (s : PipelineState) : PipelineState :=
  if st.poseFileName ≠ "" then
    { s with pending := s.pending ++ [Pending.pose],
             state := LoadStep.WaitLoadPose }
  else
    setupEyeBlink st { s with state := LoadStep.SetupEyeBlink }

/-- `LAppModel.loadCubismPhysics`. -/
def loadCubismPhysics (st : ModelSetting) (s : PipelineState) : PipelineState :=
  if st.physicsFileName ≠ "" then
    { s with pending := s.pending ++ [Pending.physics],
             state := LoadStep.WaitLoadPhysics }
  else
    loadCubismPose st { s with state := LoadStep.LoadPose }

/-- `LAppModel.loadCubismExpression`: with at least one expression,
issue every expression fetch and wait; with none, skip straight to the
physics stage. -/
def loadCubismExpression (st : ModelSetting) (s : PipelineState) : PipelineState :=
  if st.expressionNames.length > 0 then
    { s with
      pending := s.pending ++
        (List.range st.expressionNames.length).map Pending.expr
      state := LoadStep.WaitLoadExpression }
  else
    loadCubismPhysics st { s with state := LoadStep.LoadPhysics }

/-- `LAppModel.setupModel`: mark updating, fetch the rig binary when the
manifest names one (waiting in `WaitLoadModel`), otherwise print a
message and stop. -/
def setupModel (st : ModelSetting) (s : PipelineState) : PipelineState :=
  let s1 := { s with updating := true, initialized := false }
  if st.modelFileName ≠ "" then
    { s1 with pending := s1.pending ++ [Pending.modelFile],
              state := LoadStep.WaitLoadModel }
  else
    { s1 with logs := s1.logs ++ ["Model data does not exist."] }

/-- Whether the engine materializes a motion or expression from the
delivered bytes: a rejected promise delivers nothing, a non-OK response
substitutes an empty buffer (always unusable), and OK content is usable
exactly when valid. -/
def engineAccepts : FetchOutcome → Bool
  | FetchOutcome.ok true => true
  | _ => false

/-- One asynchronous completion callback of the pipeline, mirroring the
`.then` chains of the source.  A `rejected` outcome runs no handler at
all (none of these chains has a `.catch` except the manifest fetch in
`loadAssets`), so the state is returned unchanged. -/
def handleCallback (st : ModelSetting) (env : Pending → FetchOutcome)
    (p : Pending) (s : PipelineState) : PipelineState :=
  match p with
  | Pending.manifest =>
    match env Pending.manifest with
    | FetchOutcome.rejected =>
      { s with logs := s.logs ++ ["Failed to load file " ++ st.modelFileName] }
    | _ => setupModel st { s with state := LoadStep.LoadModel }
  | Pending.modelFile =>
    match env Pending.modelFile with
    | FetchOutcome.rejected => s
    | FetchOutcome.nonOk =>
      loadCubismExpression st
        { s with state := LoadStep.LoadExpression,
                 modelMatrixPresent := false,
                 logs := s.logs ++ ["Failed to load file " ++ st.modelFileName] }
    | FetchOutcome.ok valid =>
      loadCubismExpression st
        { s with state := LoadStep.LoadExpression,
                 modelMatrixPresent := valid }
  | Pending.expr i =>
    match env (Pending.expr i) with
    | FetchOutcome.rejected => s
    | o =>
      let s1 := { s with
        expressions := setValue s.expressions
          (st.expressionNames.getD i "") (engineAccepts o),
        expressionCount := s.expressionCount + 1 }
      if s1.expressionCount ≥ st.expressionNames.length then
        loadCubismPhysics st { s1 with state := LoadStep.LoadPhysics }
      else s1
  | Pending.physics =>
    match env Pending.physics with
    | FetchOutcome.rejected => s
    | _ => loadCubismPose st { s with state := LoadStep.LoadPose }
  | Pending.pose =>
    match env Pending.pose with
    | FetchOutcome.rejected => s
    | _ => setupEyeBlink st { s with state := LoadStep.SetupEyeBlink }
  | Pending.userData =>
    match env Pending.userData with
    | FetchOutcome.rejected => s
    | _ => setupEyeBlinkIds st { s with state := LoadStep.SetupEyeBlinkIds }
  | Pending.motion g i =>
    match env (Pending.motion g i) with
    | FetchOutcome.rejected => s
    | o =>
      let s1 :=
        if engineAccepts o then
          { s with
            motions := setValue s.motions (g ++ "_" ++ toString i) true
            motionCount := s.motionCount + 1 }
        else
          { s with allMotionCount := s.allMotionCount - 1 }
      if (s1.motionCount : ℤ) ≥ s1.allMotionCount then
        setupTextures st
          { s1 with state := LoadStep.LoadTexture, updating := false,
                    initialized := true }
      else s1
  | Pending.texture i =>
    match env (Pending.texture i) with
    | FetchOutcome.rejected => s
    | _ =>
      let s1 := { s with textureCount := s.textureCount + 1 }
      if s1.textureCount ≥ st.textureFiles.length then
        { s1 with state := LoadStep.CompleteSetup }
      else s1

/-- Deliver the pending callback at index `i` (the scheduler chooses any
in-flight completion); `none` when no such callback exists. -/
def stepAt (st : ModelSetting) (env : Pending → FetchOutcome)
    (s : PipelineState) (i : ℕ) : Option PipelineState :=
  match s.pending.get? i with
  | none => none
  | some p => some (handleCallback st env p { s with pending := s.pending.eraseIdx i })

/-- Run a whole schedule of callback deliveries. -/
def runSteps (st : ModelSetting) (env : Pending → FetchOutcome) :
    PipelineState → List ℕ → Option PipelineState
  | s, [] => some s
  | s, i :: rest =>
    match stepAt st env s i with
    | none => none
    | some s2 => runSteps st env s2 rest

/-- The freshly constructed model state. -/
def initialState : PipelineState :=
  { state := LoadStep.LoadAssets
    expressions := []
    motions := []
    expressionCount := 0
    textureCount := 0
    motionCount := 0
    allMotionCount := 0
    modelMatrixPresent := false
    updating := false
    initialized := false
    pending := []
    logs := [] }

/-- `LAppModel.loadAssets`: issue the manifest fetch. -/
def loadAssets (s : PipelineState) : PipelineState :=
  { s with pending := s.pending ++ [Pending.manifest] }

/-- The state right after `loadAssets` on a fresh model. -/
def startState : PipelineState := loadAssets initialState

/-- All states reachable by delivering pending callbacks in any order. -/
inductive Reaches (st : ModelSetting) (env : Pending → FetchOutcome) :
    PipelineState → PipelineState → Prop where
  | refl (s : PipelineState) : Reaches st env s s
  | step {s s2 s3 : PipelineState} {i : ℕ} (h : stepAt st env s i = some s2)
      (h2 : Reaches st env s2 s3) : Reaches st env s s3

/-- No reachable future state of the pipeline is `CompleteSetup`. -/
def NeverCompletes (st : ModelSetting) (env : Pending → FetchOutcome)
    (s : PipelineState) : Prop :=
  ∀ s2, Reaches st env s s2 → s2.state ≠ LoadStep.CompleteSetup

/-! ### Per-frame tick guard of LAppModel.ts -/

/-- The per-frame view of one model: the load step, accumulated time,
the drag values, the record of `addParameterValueById` calls issued by
the tick (engine-side motion, blink, breath, physics and pose updates
are delegated to the external engine), and whether the engine holds a
model object. -/
structure FrameState where
  state : LoadStep
  userTimeSeconds : ℚ
  dragX : ℚ
  dragY : ℚ
  paramOps : List (String × ℚ)
  modelPresent : Bool
  deriving Repr, DecidableEq

/-- `LAppModel.update`: the tick returns immediately unless the model is
in `CompleteSetup`; otherwise it accrues elapsed time and issues the
drag-derived parameter writes of the source. -/
def FrameState.update (s : FrameState) (dt : ℚ) : FrameState :=
  if s.state ≠ LoadStep.CompleteSetup then s
  else
    { s with
      userTimeSeconds := s.userTimeSeconds + dt,
      paramOps := s.paramOps ++
        [("ParamAngleX", s.dragX * 30), ("ParamAngleY", s.dragY * 30),
         ("ParamAngleZ", s.dragX * s.dragY * -30),
         ("ParamBodyAngleX", s.dragX * 10),
         ("ParamEyeBallX", s.dragX), ("ParamEyeBallY", s.dragY)] }

/-- `LAppModel.draw`: whether a draw call is issued this frame. -/
def FrameState.draw (s : FrameState) : Bool :=
  if s.modelPresent = false then false
  else decide (s.state = LoadStep.CompleteSetup)

/-- A manifest naming a rig binary but zero expressions, zero motions
and zero textures, with no physics, pose or user-data files. -/
def stZero : ModelSetting := ⟨"model.moc3", [], "", "", "", [], []⟩

/-- A manifest like `stZero` but with one expression and one texture. -/
def stExprTex : ModelSetting :=
  ⟨"model.moc3", ["smile"], "", "", "", [], ["texture_00.png"]⟩

/-- Every fetch succeeds with usable content. -/
def envOk : Pending → FetchOutcome := fun _ => FetchOutcome.ok true

/-- Every fetch succeeds except the rig binary, which resolves with a
non-OK response. -/
def envRigNonOk : Pending → FetchOutcome := fun p =>
  if p = Pending.modelFile then FetchOutcome.nonOk else FetchOutcome.ok true

/-- Every fetch succeeds except the first expression file, which
resolves with a non-OK response. -/
def envExprNonOk : Pending → FetchOutcome := fun p =>
  if p = Pending.expr 0 then FetchOutcome.nonOk else FetchOutcome.ok true

/-- The terminal state of the zero-texture pipeline: stuck waiting for
texture completions that were never issued. -/
def pipeStuck : PipelineState :=
  { state := LoadStep.WaitLoadTexture
    expressions := []
    motions := []
    expressionCount := 0
    textureCount := 0
    motionCount := 0
    allMotionCount := 0
    modelMatrixPresent := true
    updating := false
    initialized := true
    pending := []
    logs := [] }

/-- The terminal state after a non-OK rig fetch on the zero-count
manifest: the pipeline ran on through the expression, physics, pose and
user-data stages with the empty-buffer fallback and stalled in the
layout step. -/
def pipeRigNonOk : PipelineState :=
  { state := LoadStep.SetupLayout
    expressions := []
    motions := []
    expressionCount := 0
    textureCount := 0
    motionCount := 0
    allMotionCount := 0
    modelMatrixPresent := false
    updating := true
    initialized := false
    pending := []
    logs := ["Failed to load file model.moc3", "Failed to setupLayout()."] }

/-- The pipeline state right after the manifest callback on a manifest
that names a rig binary: waiting for the rig fetch. -/
def pipeWaitModel : PipelineState :=
  { state := LoadStep.WaitLoadModel
    expressions := []
    motions := []
    expressionCount := 0
    textureCount := 0
    motionCount := 0
    allMotionCount := 0
    modelMatrixPresent := false
    updating := true
    initialized := false
    pending := [Pending.modelFile]
    logs := [] }

/-- The state the pipeline enters when the rig fetch resolves non-OK:
the error is logged, the empty buffer goes to the engine (no model
matrix results), and the expression stage is entered and run. -/
def pipeAfterRigNonOk (st : ModelSetting) : PipelineState :=
  loadCubismExpression st
    { pipeWaitModel with
      pending := []
      state := LoadStep.LoadExpression
      modelMatrixPresent := false
      logs := ["Failed to load file " ++ st.modelFileName] }

/-- The state after the failed expression fetch of `stExprTex` under
`envExprNonOk`: the completed counter was incremented by the failure
and the stage transitioned on it. -/
def pipeExprFail : PipelineState :=
  { state := LoadStep.WaitLoadTexture
    expressions := [("smile", false)]
    motions := []
    expressionCount := 1
    textureCount := 0
    motionCount := 0
    allMotionCount := 0
    modelMatrixPresent := true
    updating := false
    initialized := true
    pending := [Pending.texture 0]
    logs := [] }

/-- Every fetch succeeds except one motion file, which resolves with a
non-OK response. -/
def envMotionNonOk : Pending → FetchOutcome := fun p =>
  if p = Pending.motion "Idle" 0 then FetchOutcome.nonOk
  else FetchOutcome.ok true

/-- A motion-stage state with three expected motions of which two have
already completed and one is in flight. -/
def pipeMotionWait : PipelineState :=
  { state := LoadStep.WaitLoadMotion
    expressions := []
    motions := [("Idle_1", true), ("Idle_2", true)]
    expressionCount := 0
    textureCount := 0
    motionCount := 2
    allMotionCount := 3
    modelMatrixPresent := true
    updating := true
    initialized := false
    pending := [Pending.motion "Idle" 0]
    logs := [] }

/-- A mid-load frame state: the texture stage has not completed. -/
def frameLoading : FrameState :=
  { state := LoadStep.WaitLoadTexture
    userTimeSeconds := 0
    dragX := 0
    dragY := 0
    paramOps := []
    modelPresent := true }

/-! ### The texture cache of LAppTextureManager.ts -/

/-- A registered `TextureInfo` as the cache keys it: file name and
premultiply flag (the image element, dimensions and GL handle live
outside the embedding; the source field is spelled `usePremultply`). -/
structure TextureInfo where
  fileName : String
  usePremultply : Bool
  deriving Repr, DecidableEq

/-- One in-flight image decode: the requested key and whether the
request hit an already-registered record.  A hit decode will deliver
the existing record; a miss decode will insert and deliver a new
one. -/
structure PendingDecode where
  fileName : String
  usePremultply : Bool
  isHit : Bool
  deriving Repr, DecidableEq

/-- The cache state: registered records in insertion order and the
in-flight decodes. -/
structure TexManState where
  textures : List TextureInfo
  decodes : List PendingDecode
  deriving Repr, DecidableEq

/-- `LAppTextureManager.createTextureFromPngFile`: scan the registered
records for the exact (fileName, usePremultply) pair; on a hit issue a
fresh image decode that will call back with the already-registered
record; on a miss issue a decode that will create and register a new
record when it completes. -/
def createTextureFromPngFile (s : TexManState) (fileName : String)
    (usePremultiply : Bool) : TexManState :=
  if s.textures.any
      (fun t => t.fileName == fileName && t.usePremultply == usePremultiply) then
    { s with decodes := s.decodes ++ [⟨fileName, usePremultiply, true⟩] }
  else
    { s with decodes := s.decodes ++ [⟨fileName, usePremultiply, false⟩] }

/-- Completion of the image decode at index `i`: a hit decode calls
back with the first matching registered record and inserts nothing
(records are never removed before teardown, so the record found at
issue time is still there); a miss decode registers a new record and
calls back with it.  Returns the new state and the delivered record. -/
def onDecodeLoad (s : TexManState) (i : ℕ) :
    Option (TexManState × TextureInfo) :=
  match s.decodes.get? i with
  | none => none
  | some d =>
    let s1 : TexManState := { s with decodes := s.decodes.eraseIdx i }
    if d.isHit then
      match s1.textures.find?
          (fun t => t.fileName == d.fileName &&
            t.usePremultply == d.usePremultply) with
      | some t => some (s1, t)
      | none => some (s1, ⟨d.fileName, d.usePremultply⟩)
    else
      some ({ s1 with
          textures := s1.textures ++ [⟨d.fileName, d.usePremultply⟩] },
        ⟨d.fileName, d.usePremultply⟩)

/-- An event of the cache lifetime: an acquire call or the completion
of the in-flight decode at an index. -/
inductive TexEvent where
  | acquire (fileName : String) (usePremultply : Bool)
  | complete (i : ℕ)
  deriving Repr, DecidableEq

/-- Run a sequence of cache events. -/
def texRun : TexManState → List TexEvent → TexManState
  | s, [] => s
  | s, TexEvent.acquire f p :: rest => texRun (createTextureFromPngFile s f p) rest
  | s, TexEvent.complete i :: rest =>
    match onDecodeLoad s i with
    | none => texRun s rest
    | some (s2, _) => texRun s2 rest

/-- The freshly constructed cache. -/
def texInit : TexManState := ⟨[], []⟩

/-- How many registered records carry the given key. -/
def countKey (l : List TextureInfo) (f : String) (p : Bool) : ℕ :=
  (l.filter (fun t => t.fileName == f && t.usePremultply == p)).length

/-! ### Pointer handling of LAppLive2DManager.ts -/

/-- Modelled from the spec: the TouchManager source file is absent from
the repository (only its caller is present); per the specification it
records the device-pixel-ratio-scaled canvas-local coordinates as the
drag anchor on `touchesBegan`/`touchesMoved` and exposes the anchor via
`getX`/`getY`. -/
structure TouchManager where
  lastX : ℚ
  lastY : ℚ
  deriving Repr, DecidableEq

/-- Modelled from the spec: record the touch-down point as the anchor. -/
def TouchManager.touchesBegan (_t : TouchManager) (x y : ℚ) : TouchManager :=
  ⟨x, y⟩

/-- Modelled from the spec: advance the anchor to the new position. -/
def TouchManager.touchesMoved (_t : TouchManager) (x y : ℚ) : TouchManager :=
  ⟨x, y⟩

/-- Modelled from the spec: the anchor abscissa. -/
def TouchManager.getX (t : TouchManager) : ℚ := t.lastX

/-- Modelled from the spec: the anchor ordinate. -/
def TouchManager.getY (t : TouchManager) : ℚ := t.lastY

/-- The view environment of the manager: canvas offsets, the device
pixel ratio, and the model-space projection maps
(`transformViewX`/`transformViewY`, the device-to-screen transform
composed with the inverted view matrix; the matrix algebra lives in the
external framework). -/
structure ViewEnv where
  offsetLeft : ℚ
  offsetTop : ℚ
  devicePixelRatio : ℚ
  transformViewX : ℚ → ℚ
  transformViewY : ℚ → ℚ

/-- The manager state touched by pointer handling: the captured flag,
the touch anchor, the drag vector last forwarded to the active model
via `setDragging`, and the point at which the last hit test ran
(`onTap`). -/
structure PointerState where
  captured : Bool
  touch : TouchManager
  drag : ℚ × ℚ
  tapAt : Option (ℚ × ℚ)

/-- `LAppLive2DManager.onPointBegan`. -/
def onPointBegan (v : ViewEnv) (s : PointerState) (pageX pageY : ℚ) :
    PointerState :=
  { s with
    captured := true
    touch := s.touch.touchesBegan ((pageX - v.offsetLeft) * v.devicePixelRatio)
      ((pageY - v.offsetTop) * v.devicePixelRatio) }

/-- `LAppLive2DManager.onPointMoved`: while captured, project the
PREVIOUS anchor into model space, advance the anchor to the new
position, and forward that projection as the drag vector. -/
def onPointMoved (v : ViewEnv) (s : PointerState) (pageX pageY : ℚ) :
    PointerState :=
  if s.captured = false then s
  else
    let posX := (pageX - v.offsetLeft) * v.devicePixelRatio
    let posY := (pageY - v.offsetTop) * v.devicePixelRatio
    let viewX := v.transformViewX s.touch.getX
    let viewY := v.transformViewY s.touch.getY
    { s with
      touch := s.touch.touchesMoved posX posY
      drag := (viewX, viewY) }

/-- `LAppLive2DManager.onPointEnded`: clear captured, zero the drag
vector, project the release point into model space and run the hit
test there. -/
def onPointEnded (v : ViewEnv) (s : PointerState) (pageX pageY : ℚ) :
    PointerState :=
  let posX := (pageX - v.offsetLeft) * v.devicePixelRatio
  let posY := (pageY - v.offsetTop) * v.devicePixelRatio
  { s with
    captured := false
    drag := (0, 0)
    tapAt := some (v.transformViewX posX, v.transformViewY posY) }

/-- A concrete view environment for witnesses: zero offsets, ratio 2,
affine projections. -/
def viewEnv1 : ViewEnv :=
  { offsetLeft := 0
    offsetTop := 0
    devicePixelRatio := 2
    transformViewX := fun x => x / 10
    transformViewY := fun y => y / 10 - 1 }

/-- A captured pointer state with anchor (4, 6). -/
def pointerS1 : PointerState :=
  { captured := true
    touch := ⟨4, 6⟩
    drag := (0, 0)
    tapAt := none }

/-! ### Scene management of LAppLive2DManager.ts -/

/-- The scene-management state: the held model instances (identified by
creation stamps), the scene index, and the stamp the next construction
will use. -/
structure ManagerState where
  models : List ℕ
  sceneIndex : ℕ
  nextId : ℕ
  deriving Repr, DecidableEq

/-- `LAppLive2DManager.releaseAllModel`: clear the model vector. -/
def releaseAllModel (s : ManagerState) : ManagerState := { s with models := [] }

/-- `LAppLive2DManager.changeScene`: record the index, release every
held model, construct a fresh instance and push it. -/
def changeScene (s : ManagerState) (index : ℕ) : ManagerState :=
  let s1 := { s with sceneIndex := index }
  let s2 := releaseAllModel s1
  { s2 with models := s2.models ++ [s2.nextId], nextId := s2.nextId + 1 }

/-- Range of a two's-complement 32-bit value. -/
theorem asInt32_mem (n : ℕ) : -(2 ^ 31) ≤ asInt32 n ∧ asInt32 n ≤ 2 ^ 31 - 1 := by
  simp only [asInt32]
  have h : n % 2 ^ 32 < 2 ^ 32 := Nat.mod_lt n (by norm_num)
  split <;> omega

/-- Range of a JavaScript 32-bit shift result. -/
theorem shl32_mem (x : ℤ) (k : ℕ) : -(2 ^ 31) ≤ shl32 x k ∧ shl32 x k ≤ 2 ^ 31 - 1 :=
  asInt32_mem _

/-- Dividing a signed 32-bit value by the maximum positive magnitude
lands in the slightly asymmetric interval reaching just below -1. -/
theorem div_int32_bounds (x : ℤ) (h1 : -(2 ^ 31) ≤ x) (h2 : x ≤ 2 ^ 31 - 1) :
    -(2147483648 : ℚ) / 2147483647 ≤ (x : ℚ) / 2147483647 ∧
      (x : ℚ) / 2147483647 ≤ 1 := by
  constructor
  · apply div_le_div_of_nonneg_right ?_ (by norm_num)
    · exact_mod_cast h1
  · rw [div_le_one (by norm_num)]
    exact_mod_cast h2

/-- C4, amended.  Every decoded PCM sample follows the per-width
formulas of the source (8-bit: offset by 128 then shifted into the high
byte; 16-bit and 24-bit: little-endian value shifted into the high
bits, with 32-bit signed wraparound; any other width: exactly 0 without
failing), and the normalized value lies in
[-2^31 / (2^31 - 1), 1] — the full-scale negative sample slightly
undershoots -1, so the interval [-1, 1] claimed by the specification is
exceeded on that one side. -/
theorem C4_pcm_sample_amended (bits : ℕ) (buf : Buf) (off off2 : ℤ) (v : ℚ)
    (h : getPcmSample bits buf off = some (v, off2)) :
    (-(2147483648 : ℚ) / 2147483647 ≤ v ∧ v ≤ 1) ∧
    (∀ b o, bits = 8 → get8 buf off = some (b, o) →
      v = (shl32 ((b : ℤ) - 128) 24 : ℚ) / 2147483647 ∧ off2 = o) ∧
    (∀ w o, bits = 16 → get16LittleEndian buf off = some (w, o) →
      v = (shl32 (w : ℤ) 16 : ℚ) / 2147483647 ∧ off2 = o) ∧
    (∀ w o, bits = 24 → get24LittleEndian buf off = some (w, o) →
      v = (shl32 (w : ℤ) 8 : ℚ) / 2147483647 ∧ off2 = o) ∧
    (bits ≠ 8 → bits ≠ 16 → bits ≠ 24 → v = 0 ∧ off2 = off) := by
  unfold getPcmSample at h
  split_ifs at h with h8 h16 h24
  · rw [Option.map_eq_some'] at h
    obtain ⟨p, hg, hf⟩ := h
    rw [Prod.mk.injEq] at hf
    obtain ⟨rfl, rfl⟩ := hf
    refine ⟨div_int32_bounds _ (shl32_mem _ _).1 (shl32_mem _ _).2, ?_, ?_, ?_, ?_⟩
    · intro b o _ hro
      rw [hg] at hro
      have hp := Option.some.inj hro
      subst hp
      exact ⟨rfl, rfl⟩
    · intro w o hb _
      exact absurd (h8.symm.trans hb) (by decide)
    · intro w o hb _
      exact absurd (h8.symm.trans hb) (by decide)
    · intro hb _ _
      exact absurd h8 hb
  · rw [Option.map_eq_some'] at h
    obtain ⟨p, hg, hf⟩ := h
    rw [Prod.mk.injEq] at hf
    obtain ⟨rfl, rfl⟩ := hf
    refine ⟨div_int32_bounds _ (shl32_mem _ _).1 (shl32_mem _ _).2, ?_, ?_, ?_, ?_⟩
    · intro b o hb _
      exact absurd (h16.symm.trans hb) (by decide)
    · intro w o _ hro
      rw [hg] at hro
      have hp := Option.some.inj hro
      subst hp
      exact ⟨rfl, rfl⟩
    · intro w o hb _
      exact absurd (h16.symm.trans hb) (by decide)
    · intro _ hb _
      exact absurd h16 hb
  · rw [Option.map_eq_some'] at h
    obtain ⟨p, hg, hf⟩ := h
    rw [Prod.mk.injEq] at hf
    obtain ⟨rfl, rfl⟩ := hf
    refine ⟨div_int32_bounds _ (shl32_mem _ _).1 (shl32_mem _ _).2, ?_, ?_, ?_, ?_⟩
    · intro b o hb _
      exact absurd (h24.symm.trans hb) (by decide)
    · intro w o hb _
      exact absurd (h24.symm.trans hb) (by decide)
    · intro w o _ hro
      rw [hg] at hro
      have hp := Option.some.inj hro
      subst hp
      exact ⟨rfl, rfl⟩
    · intro _ _ hb
      exact absurd h24 hb
  · have hp := Option.some.inj h
    rw [Prod.mk.injEq] at hp
    obtain ⟨hv, rfl⟩ := hp
    have hv0 : v = 0 := by rw [← hv]; norm_num
    subst hv0
    refine ⟨by norm_num, ?_, ?_, ?_, fun _ _ _ => ⟨rfl, rfl⟩⟩
    · intro b o hb _
      exact absurd hb h8
    · intro w o hb _
      exact absurd hb h16
    · intro w o hb _
      exact absurd hb h24

/-- C4, counterexample to the stated range: the full-scale negative
16-bit sample (bytes 00 80, the value -32768) decodes to
-2^31 / (2^31 - 1), which is strictly below -1, so the decoded value is
not always in [-1, 1]. -/
theorem C4_pcm_sample_counterexample :
    getPcmSample 16 [0, 128] 0 = some ((-2147483648 : ℚ) / 2147483647, 2) ∧
      (-2147483648 : ℚ) / 2147483647 < -1 := by
  constructor
  · rfl
  · norm_num

/-- C4 witness: the amended theorem applied to a concrete 8-bit sample. -/
theorem C4_pcm_sample_witness :
    -(2147483648 : ℚ) / 2147483647 ≤ (1207959552 : ℚ) / 2147483647 ∧
      (1207959552 : ℚ) / 2147483647 ≤ 1 :=
  (C4_pcm_sample_amended 8 [200] 0 1 ((1207959552 : ℚ) / 2147483647)
    (by rfl)).1

/-- A successful byte read is in range and returns the byte there. -/
theorem getUint8_eq_some {buf : Buf} {off : ℤ} {b : ℕ}
    (h : getUint8 buf off = some b) :
    0 ≤ off ∧ off < (buf.length : ℤ) ∧ b = buf.getD off.toNat 0 := by
  unfold getUint8 at h
  split_ifs at h with hc
  exact ⟨hc.1, hc.2, (Option.some.inj h).symm⟩

/-- A signature check that reports the data signature pins down four
in-range bytes spelling it. -/
theorem getCheckSignature_data {buf : Buf} {off o : ℤ}
    (h : getCheckSignature buf off dataSig = some (true, o)) :
    0 ≤ off ∧ o = off + 4 ∧ HasDataSigAt buf off.toNat := by
  unfold getCheckSignature at h
  rcases h0 : getUint8 buf off with _ | b0 <;> rw [h0] at h
  · simp at h
  rcases h1 : getUint8 buf (off + 1) with _ | b1 <;> rw [h1] at h
  · simp at h
  rcases h2 : getUint8 buf (off + 2) with _ | b2 <;> rw [h2] at h
  · simp at h
  rcases h3 : getUint8 buf (off + 3) with _ | b3 <;> rw [h3] at h
  · simp at h
  simp only [Option.some.injEq, Prod.mk.injEq] at h
  obtain ⟨hdec, ho⟩ := h
  have hb0 := getUint8_eq_some h0
  have hb1 := getUint8_eq_some h1
  have hb2 := getUint8_eq_some h2
  have hb3 := getUint8_eq_some h3
  have hlist : [b0, b1, b2, b3] = dataSig := of_decide_eq_true hdec
  have e1 : (off + 1).toNat = off.toNat + 1 := by omega
  have e2 : (off + 2).toNat = off.toNat + 2 := by omega
  have e3 : (off + 3).toNat = off.toNat + 3 := by omega
  refine ⟨hb0.1, ho.symm, ?_, ?_⟩
  · omega
  · rw [← hlist, hb0.2.2, hb1.2.2, hb2.2.2, hb3.2.2, e1, e2, e3]

/-- The scan loop stops either on a data signature or at or beyond the
end of the buffer. -/
theorem scanData_ok {buf : Buf} :
    ∀ fuel off off2, scanData buf fuel off = Except.ok off2 →
      HasDataSigAt buf (off2 - 4).toNat ∨ (buf.length : ℤ) ≤ off2 := by
  intro fuel
  induction fuel with
  | zero =>
    intro off off2 h
    exact absurd h (by simp [scanData])
  | succ n ih =>
    intro off off2 h
    unfold scanData at h
    rcases hs : getCheckSignature buf off dataSig with _ | pr <;> rw [hs] at h
    · simp at h
    obtain ⟨found, off1⟩ := pr
    rcases found with _ | _
    · simp only [Bool.false_eq_true, if_false] at h
      split_ifs at h with hlt
      · rcases hg : get32LittleEndian buf off1 with _ | pr2 <;> rw [hg] at h
        · simp at h
        · obtain ⟨size, o2⟩ := pr2
          exact ih _ _ h
      · have ho := Except.ok.inj h
        subst ho
        right
        omega
    · simp only [if_true] at h
      have ho := Except.ok.inj h
      subst ho
      obtain ⟨hoff, ho4, hsig⟩ := getCheckSignature_data hs
      left
      have he : (off1 - 4).toNat = off.toNat := by omega
      rw [he]
      exact hsig

/-- C6, amended.  For every buffer containing no data chunk signature,
the parse never throws to the caller and never succeeds: whenever the
scan loop terminates the parse returns false, but a chunk whose declared
size field decodes to a negative 32-bit value can keep the scan from
advancing, in which case the loop runs forever.  Unrecognized chunks are
skipped by their declared size (read as a signed 32-bit value) plus the
4-byte size header, on top of the 4 identifier bytes already
consumed. -/
theorem C6_wav_no_data_amended (buf : Buf) (hnd : NoDataSig buf) :
    (∀ fuel, loadWavFile buf fuel = none ∨ loadWavFile buf fuel = some none) ∧
    (∀ off size o2 fuel, getCheckSignature buf off dataSig = some (false, off + 4) →
      off + 4 < (buf.length : ℤ) →
      get32LittleEndian buf (off + 4) = some (size, o2) →
      scanData buf (fuel + 1) off = scanData buf fuel (off + 4 + size + 4)) := by
  constructor
  · intro fuel
    unfold loadWavFile
    rcases hp : parseWavE buf fuel with e | c
    · cases e <;> simp
    exfalso
    unfold parseWavE at hp
    rcases hh : parseHeader buf with e | hd
    · rw [hh] at hp
      simp at hp
    rw [hh] at hp
    dsimp only at hp
    rcases hscan : scanData buf fuel hd.2.2.2 with e | offData
    · rw [hscan] at hp
      simp at hp
    rw [hscan] at hp
    dsimp only at hp
    rcases scanData_ok _ _ _ hscan with hsig | hge
    · have hlen : (offData - 4).toNat < buf.length := by
        have := hsig.1
        omega
      exact hnd _ hlen hsig
    · rw [if_pos hge] at hp
      simp at hp
  · intro off size o2 fuel hsig hlt hg
    conv_lhs => rw [scanData]
    rw [hsig]
    simp only [Bool.false_eq_true, if_false]
    rw [if_pos hlt, hg]

/-- The one scan step on `bufLoop`: the junk chunk at offset 36 declares
size -8, so the scan lands back at offset 36. -/
theorem scanData_bufLoop_step (n : ℕ) :
    scanData bufLoop (n + 1) 36 = scanData bufLoop n 36 := by
  have h1 : getCheckSignature bufLoop 36 dataSig = some (false, 40) := by rfl
  have h2 : get32LittleEndian bufLoop 40 = some (-8, 44) := by rfl
  conv_lhs => rw [scanData]
  rw [h1]
  simp only [Bool.false_eq_true, if_false]
  rw [if_pos (by norm_num [bufLoop]), h2]
  norm_num

/-- C6, counterexample to the claim as stated: `bufLoop` parses its
RIFF/WAVE/fmt header, contains no data chunk, yet `loadWavFile` does not
return false — the scan loop never terminates on it. -/
theorem C6_wav_counterexample : NoDataSig bufLoop ∧ ParseRunsForever bufLoop := by
  constructor
  · decide
  · intro fuel
    have hscan : ∀ n, scanData bufLoop n 36 = Except.error PFail.diverge := by
      intro n
      induction n with
      | zero => rfl
      | succ k ih => rw [scanData_bufLoop_step, ih]
    have hh : parseHeader bufLoop = Except.ok (1, 1, 16, 36) := by rfl
    unfold loadWavFile parseWavE
    rw [hh]
    dsimp only
    rw [hscan fuel]

/-- C6 witness: the amended theorem applied to `bufLoop`. -/
theorem C6_wav_witness :
    loadWavFile bufLoop 5 = none ∨ loadWavFile bufLoop 5 = some none :=
  (C6_wav_no_data_amended bufLoop (by decide)).1 5

/-- Iterating over positions of a list through a default read is the
same as mapping over the list. -/
theorem range_map_getD {α β : Type} (l : List α) (d : α) (f : α → β) :
    (List.range l.length).map (fun i => f (l.getD i d)) = l.map f := by
  induction l with
  | nil => rfl
  | cons a t ih =>
    rw [List.length_cons, List.range_succ_eq_map, List.map_cons, List.map_map,
      List.map_cons]
    congr 1

/-- A counted window read through a default read is the slice of the
list, as long as the window stays in range. -/
theorem range_window_map {α β : Type} (ch : List α) (d : α) (g : α → β)
    (off cnt : ℕ) (h : off + cnt ≤ ch.length) :
    (List.range cnt).map (fun k => g (ch.getD (off + k) d)) =
      ((ch.drop off).take cnt).map g := by
  apply List.ext_getElem
  case hl =>
    simp only [List.length_map, List.length_range, List.length_take,
      List.length_drop]
    omega
  case h =>
    intro i h1 h2
    simp only [List.length_map, List.length_range] at h1
    simp only [List.getElem_map, List.getElem_range, List.getElem_take,
      List.getElem_drop]
    rw [List.getD_eq_getElem]

/-- The implementation window sum equals the specification slice sum on
a well-formed state. -/
theorem windowSumSq_eq_spec (data : List (List ℚ)) (offN goalN : ℕ)
    (hle : offN ≤ goalN) (hlen : ∀ ch ∈ data, goalN ≤ ch.length) :
    windowSumSq data data.length (offN : ℚ) (goalN : ℚ) =
      specSumSq data offN goalN := by
  unfold windowSumSq specSumSq
  have hcnt : (⌈(goalN : ℚ) - (offN : ℚ)⌉ : ℤ).toNat = goalN - offN := by
    rw [show ((goalN : ℚ) - (offN : ℚ)) = (((goalN : ℤ) - (offN : ℤ) : ℤ) : ℚ) by
      push_cast; ring]
    rw [Int.ceil_intCast]
    omega
  rw [range_map_getD data ([] : List ℚ) (fun ch =>
    ((List.range (⌈(goalN : ℚ) - (offN : ℚ)⌉ : ℤ).toNat).map (fun k : ℕ =>
      let v := ch.getD (⌊(offN : ℚ) + (k : ℚ)⌋ : ℤ).toNat 0
      v * v)).sum)]
  apply congrArg
  apply List.map_congr_left
  intro ch hch
  rw [hcnt]
  have hidx : ∀ k : ℕ, (⌊(offN : ℚ) + (k : ℚ)⌋ : ℤ).toNat = offN + k := by
    intro k
    rw [show ((offN : ℚ) + (k : ℚ)) = (((offN + k : ℕ) : ℤ) : ℚ) by push_cast; ring]
    rw [Int.floor_intCast]
    omega
  calc ((List.range (goalN - offN)).map (fun k : ℕ =>
          let v := ch.getD (⌊(offN : ℚ) + (k : ℚ)⌋ : ℤ).toNat 0
          v * v)).sum
      = ((List.range (goalN - offN)).map (fun k =>
          (fun v => v * v) (ch.getD (offN + k) 0))).sum := by
        apply congrArg
        apply List.map_congr_left
        intro k hk
        simp only [hidx k]
    _ = (((ch.drop offN).take (goalN - offN)).map (fun v => v * v)).sum := by
        rw [range_window_map ch 0 (fun v => v * v) offN (goalN - offN)
          (by have := hlen ch hch; omega)]

/-- The specification window sum is a sum of squares, hence
nonnegative. -/
theorem specSumSq_nonneg (data : List (List ℚ)) (off goal : ℕ) :
    0 ≤ specSumSq data off goal := by
  unfold specSumSq
  apply List.sum_nonneg
  intro x hx
  simp only [List.mem_map] at hx
  obtain ⟨ch, -, rfl⟩ := hx
  apply List.sum_nonneg
  intro y hy
  simp only [List.mem_map] at hy
  obtain ⟨v, -, rfl⟩ := hy
  exact mul_self_nonneg v

/-- An empty window sums to zero. -/
theorem windowSumSq_self (data : List (List ℚ)) (channels : ℕ) (off : ℚ) :
    windowSumSq data channels off off = 0 := by
  unfold windowSumSq
  simp

/-- C5, amended.  On a well-formed loaded clip and a tick with
nonnegative elapsed time: once the offset has reached the clip
end, the tick reports envelope exactly 0 and returns false; otherwise
the target offset advances to the floor of total elapsed seconds times
the sampling rate, clamped to the per-channel sample count, and when the
offset actually advances the envelope is the root mean square (stored as
`sqrtOf` its mean-square argument) over all channels of the samples from
the previous offset inclusive to the new offset exclusive — but a tick
that leaves the offset unchanged stores NaN (the 0/0 division), contrary
to the stated claim that the envelope is never NaN. -/
theorem C5_envelope_amended (s : WavState) (dt : ℚ) (data : List (List ℚ))
    (offN spcN : ℕ)
    (hdata : s.pcmData = some data)
    (hoff : s.sampleOffset = (offN : ℚ))
    (hspc : s.samplesPerChannel = (spcN : ℚ))
    (hch : s.numberOfChannels = data.length)
    (hch1 : 1 ≤ data.length)
    (hlen : ∀ ch ∈ data, ch.length = spcN)
    (_hdt : 0 ≤ dt)
    (hmono : (offN : ℚ) ≤ ((⌊(s.userTimeSeconds + dt) * s.samplingRate⌋ : ℤ) : ℚ)) :
    (spcN ≤ offN → update s dt = ({ s with lastRms := JsF.sqrtOf 0 }, false)) ∧
    (offN < spcN →
      ∃ goalN : ℕ,
        (goalN : ℤ) = min ⌊(s.userTimeSeconds + dt) * s.samplingRate⌋ (spcN : ℤ) ∧
        (update s dt).2 = true ∧
        (update s dt).1.sampleOffset = (goalN : ℚ) ∧
        (update s dt).1.userTimeSeconds = s.userTimeSeconds + dt ∧
        (offN < goalN →
          (update s dt).1.lastRms =
            JsF.sqrtOf (specSumSq data offN goalN /
              ((data.length : ℚ) * ((goalN : ℚ) - (offN : ℚ))))) ∧
        (goalN = offN → (update s dt).1.lastRms = JsF.nan)) := by
  have hGZ : (offN : ℤ) ≤ ⌊(s.userTimeSeconds + dt) * s.samplingRate⌋ := by
    exact_mod_cast hmono
  constructor
  · intro hend
    unfold update
    rw [if_pos]
    right
    rw [hoff, hspc]
    exact_mod_cast hend
  · intro hlt
    have hguard : ¬ (s.pcmData = none ∨ s.sampleOffset ≥ s.samplesPerChannel) := by
      push_neg
      refine ⟨by rw [hdata]; simp, ?_⟩
      rw [hoff, hspc]
      exact_mod_cast hlt
    set GZ : ℤ := ⌊(s.userTimeSeconds + dt) * s.samplingRate⌋ with hGZdef
    set goalN : ℕ := (min GZ (spcN : ℤ)).toNat with hgoalNdef
    set goalQ : ℚ := if ((GZ : ℤ) : ℚ) > s.samplesPerChannel
      then s.samplesPerChannel else ((GZ : ℤ) : ℚ) with hgoalQdef
    have hupd : update s dt =
        ({ s with userTimeSeconds := s.userTimeSeconds + dt,
                  lastRms := rmsDivSqrt
                    (windowSumSq data s.numberOfChannels s.sampleOffset goalQ)
                    ((s.numberOfChannels : ℚ) * (goalQ - s.sampleOffset)),
                  sampleOffset := goalQ }, true) := by
      unfold update
      rw [if_neg hguard, hdata]
      rfl
    have hgoalQN : goalQ = (goalN : ℚ) := by
      rw [hgoalQdef, hspc]
      by_cases hcl : ((GZ : ℤ) : ℚ) > (spcN : ℚ)
      · rw [if_pos hcl]
        have hszlt : (spcN : ℤ) < GZ := by exact_mod_cast hcl
        have heq2 : goalN = spcN := by omega
        rw [heq2]
      · rw [if_neg hcl]
        have hle2 : GZ ≤ (spcN : ℤ) := by exact_mod_cast not_lt.mp hcl
        have heq2 : (goalN : ℤ) = GZ := by omega
        exact_mod_cast heq2.symm
    have hoffle : offN ≤ goalN := by omega
    have hgoalspc : goalN ≤ spcN := by omega
    refine ⟨goalN, by omega, by rw [hupd], by rw [hupd]; exact hgoalQN,
      by rw [hupd], ?_, ?_⟩
    · intro hlt2
      rw [hupd]
      show rmsDivSqrt _ _ = _
      have hsum : windowSumSq data s.numberOfChannels s.sampleOffset goalQ =
          specSumSq data offN goalN := by
        rw [hch, hoff, hgoalQN]
        exact windowSumSq_eq_spec data offN goalN hoffle
          (fun ch hm => by rw [hlen ch hm]; omega)
      have hden : ((s.numberOfChannels : ℚ) * (goalQ - s.sampleOffset)) =
          (data.length : ℚ) * ((goalN : ℚ) - (offN : ℚ)) := by
        rw [hch, hoff, hgoalQN]
      rw [hsum, hden]
      unfold rmsDivSqrt
      have hdenpos : (0 : ℚ) < (data.length : ℚ) * ((goalN : ℚ) - (offN : ℚ)) := by
        apply mul_pos
        · exact_mod_cast hch1
        · have hc : (offN : ℚ) < (goalN : ℚ) := by exact_mod_cast hlt2
          linarith
      rw [if_neg (by linarith)]
      rw [if_neg]
      push_neg
      apply div_nonneg (specSumSq_nonneg data offN goalN) (le_of_lt hdenpos)
    · intro heq
      rw [hupd]
      show rmsDivSqrt _ _ = _
      have hoffeq : goalQ = s.sampleOffset := by
        rw [hgoalQN, hoff, heq]
      rw [hoffeq, windowSumSq_self, sub_self, mul_zero]
      unfold rmsDivSqrt
      rw [if_pos rfl, if_pos rfl]

/-- C5, counterexample to the stated claim: `bufOk` parses into a real
loaded clip, and the very first tick with elapsed time 0 (the target
offset does not advance) stores NaN as the envelope while returning
true, so the envelope is not always a well-defined number. -/
theorem C5_envelope_counterexample :
    loadWavFile bufOk 1 = some (some wavClipOk) ∧
      (update (stateOfClip wavClipOk) 0).2 = true ∧
      (update (stateOfClip wavClipOk) 0).1.lastRms = JsF.nan := by
  have hs : stateOfClip wavClipOk = wavSOk := by
    unfold stateOfClip wavClipOk wavSOk
    simp only [WavState.mk.injEq]
    norm_num
  have hu : update wavSOk 0 = ({ wavSOk with lastRms := JsF.nan }, true) := by
    unfold update
    rw [if_neg (by simp [wavSOk])]
    simp only [wavSOk]
    norm_num [windowSumSq_self, rmsDivSqrt]
  refine ⟨by rfl, ?_, ?_⟩ <;> rw [hs, hu]

/-- C5 witness: the amended theorem applied to a concrete one-sample
loaded state ticked by one second. -/
theorem C5_envelope_witness : (update wavS1 1).2 = true := by
  obtain ⟨-, h2⟩ := C5_envelope_amended wavS1 1 [[(1 : ℚ) / 2]] 0 1 rfl rfl rfl rfl
    (by norm_num)
    (by intro ch hch; simp only [List.mem_singleton] at hch; rw [hch]; rfl)
    (by norm_num) (by norm_num [wavS1])
  obtain ⟨g, hg, htrue, -⟩ := h2 (by norm_num)
  exact htrue

/-- A pipeline with no in-flight callbacks can never step again. -/
theorem reaches_empty_pending {st : ModelSetting} {env : Pending → FetchOutcome}
    {s s2 : PipelineState} (hp : s.pending = [])
    (h : Reaches st env s s2) : s2 = s := by
  induction h with
  | refl _ => rfl
  | step hs _ _ =>
    rename_i s' s'' s''' i _
    rw [stepAt, hp] at hs
    simp at hs

/-- C1, counterexample to the stated claim: on a manifest with zero
textures (and zero expressions and motions, so the zero-texture stage is
certainly reached) the pipeline completes both of its fetches and ends
in `WaitLoadTexture` with nothing in flight; `CompleteSetup` is
unreachable from there, so the zero-texture fan-out stage is waited on
forever instead of being skipped. -/
theorem C1_zero_texture_counterexample :
    runSteps stZero envOk startState [0, 0] = some pipeStuck ∧
      pipeStuck.state = LoadStep.WaitLoadTexture ∧
      pipeStuck.pending = [] ∧
      NeverCompletes stZero envOk pipeStuck := by
  refine ⟨by rfl, rfl, rfl, ?_⟩
  intro s2 h
  rw [reaches_empty_pending rfl h]
  decide

/-- C1, amended.  A fan-out stage with zero required sub-resources is
skipped immediately for the expression and motion stages — a pipeline
whose manifest has zero expressions, zero motion groups and zero
textures runs synchronously from the rig-binary completion all the way
into the texture stage — but the zero-texture stage itself is NOT
skipped: `setupTextures` unconditionally ends in `WaitLoadTexture`, no
texture callback exists to observe the counter, and the pipeline never
reaches `CompleteSetup`. -/
theorem C1_zero_texture_amended (st : ModelSetting) (env : Pending → FetchOutcome)
    (hm : st.modelFileName ≠ "")
    (he : st.expressionNames = [])
    (hph : st.physicsFileName = "")
    (hpo : st.poseFileName = "")
    (hu : st.userDataFile = "")
    (hg : st.motionGroups = [])
    (ht : st.textureFiles = [])
    (henv1 : env Pending.manifest = FetchOutcome.ok true)
    (henv2 : env Pending.modelFile = FetchOutcome.ok true) :
    runSteps st env startState [0, 0] = some pipeStuck ∧
      NeverCompletes st env pipeStuck := by
  constructor
  · unfold runSteps stepAt startState loadAssets initialState
    simp only [List.nil_append, List.get?, List.eraseIdx]
    rw [handleCallback, henv1]
    unfold setupModel
    rw [if_pos hm]
    simp only [List.nil_append]
    rw [runSteps]
    unfold stepAt
    simp only [List.get?, List.eraseIdx]
    rw [handleCallback, henv2]
    unfold loadCubismExpression loadCubismPhysics loadCubismPose setupEyeBlink
      setupBreath loadUserDataFile setupEyeBlinkIds setupLipSyncIds setupLayout
      loadCubismMotion setupTextures runSteps
    simp [he, hph, hpo, hu, hg, ht, pipeStuck]
  · intro s2 h
    rw [reaches_empty_pending rfl h]
    decide

/-- C1 witness: the amended theorem applied to the concrete zero-count
manifest with all fetches succeeding. -/
theorem C1_zero_texture_witness :
    runSteps stZero envOk startState [0, 0] = some pipeStuck ∧
      NeverCompletes stZero envOk pipeStuck :=
  C1_zero_texture_amended stZero envOk (by decide) rfl rfl rfl rfl rfl rfl
    rfl rfl

/-- Delivering one callback unrolls one schedule entry. -/
theorem runSteps_cons (st : ModelSetting) (env : Pending → FetchOutcome)
    (s : PipelineState) (i : ℕ) (rest : List ℕ) (s2 : PipelineState)
    (h : stepAt st env s i = some s2) :
    runSteps st env s (i :: rest) = runSteps st env s2 rest := by
  rw [runSteps, h]

/-- The manifest callback on a rig-naming manifest leaves the pipeline
waiting for the rig fetch. -/
theorem step_manifest_ok (st : ModelSetting) (env : Pending → FetchOutcome)
    (hm : st.modelFileName ≠ "")
    (henv1 : env Pending.manifest = FetchOutcome.ok true) :
    stepAt st env startState 0 = some pipeWaitModel := by
  unfold stepAt startState loadAssets initialState
  simp only [List.nil_append, List.get?, List.eraseIdx]
  rw [handleCallback, henv1]
  unfold setupModel
  rw [if_pos hm]
  rfl

/-- A rejected rig fetch runs no handler at all: nothing is logged and
no stage is entered. -/
theorem step_model_rejected (st : ModelSetting) (env : Pending → FetchOutcome)
    (hrej : env Pending.modelFile = FetchOutcome.rejected) :
    stepAt st env pipeWaitModel 0 =
      some { pipeWaitModel with pending := [] } := by
  unfold stepAt pipeWaitModel
  simp only [List.get?, List.eraseIdx]
  rw [handleCallback, hrej]

/-- A non-OK rig fetch logs the failure and continues into the
expression stage with the empty-buffer fallback. -/
theorem step_model_nonOk (st : ModelSetting) (env : Pending → FetchOutcome)
    (hnon : env Pending.modelFile = FetchOutcome.nonOk) :
    stepAt st env pipeWaitModel 0 = some (pipeAfterRigNonOk st) := by
  unfold stepAt pipeWaitModel pipeAfterRigNonOk
  simp only [List.get?, List.eraseIdx]
  rw [handleCallback, hnon]
  rfl

/-- Whatever the manifest contains, running the synchronous cascade from
the expression stage ends in one of the waiting states after the rig
load — never back in a pre-rig state. -/
theorem cascade_state (st : ModelSetting) (s : PipelineState) :
    (loadCubismExpression st s).state = LoadStep.WaitLoadExpression ∨
    (loadCubismExpression st s).state = LoadStep.WaitLoadPhysics ∨
    (loadCubismExpression st s).state = LoadStep.WaitLoadPose ∨
    (loadCubismExpression st s).state = LoadStep.WaitLoadUserData ∨
    (loadCubismExpression st s).state = LoadStep.SetupLayout ∨
    (loadCubismExpression st s).state = LoadStep.WaitLoadMotion ∨
    (loadCubismExpression st s).state = LoadStep.WaitLoadTexture := by
  unfold loadCubismExpression loadCubismPhysics loadCubismPose setupEyeBlink
    setupBreath loadUserDataFile setupEyeBlinkIds setupLipSyncIds setupLayout
    loadCubismMotion setupTextures
  split_ifs <;> simp

/-- The synchronous cascade only ever appends to the log. -/
theorem cascade_logs (st : ModelSetting) (s : PipelineState) (x : String)
    (hx : x ∈ s.logs) : x ∈ (loadCubismExpression st s).logs := by
  unfold loadCubismExpression loadCubismPhysics loadCubismPose setupEyeBlink
    setupBreath loadUserDataFile setupEyeBlinkIds setupLipSyncIds setupLayout
    loadCubismMotion setupTextures
  split_ifs <;> simp [hx]

/-- The synchronous cascade never touches the expression counter. -/
theorem cascadePhysics_expressionCount (st : ModelSetting) (s : PipelineState) :
    (loadCubismPhysics st s).expressionCount = s.expressionCount := by
  unfold loadCubismPhysics loadCubismPose setupEyeBlink setupBreath
    loadUserDataFile setupEyeBlinkIds setupLipSyncIds setupLayout
    loadCubismMotion setupTextures
  split_ifs <;> simp

/-- C2, counterexample to the stated claim: with the rig fetch resolving
non-OK on the zero-count manifest, the failure is logged but the
pipeline does not stop — it enters the expression stage and runs the
synchronous cascade to the layout step with the empty-buffer fallback,
so later stages ARE entered with fallback data. -/
theorem C2_rig_failure_counterexample :
    runSteps stZero envRigNonOk startState [0, 0] = some pipeRigNonOk ∧
      "Failed to load file model.moc3" ∈ pipeRigNonOk.logs ∧
      pipeRigNonOk.state = LoadStep.SetupLayout ∧
      pipeRigNonOk.state ≠ LoadStep.WaitLoadModel ∧
      NeverCompletes stZero envRigNonOk pipeRigNonOk := by
  refine ⟨by rfl, by simp [pipeRigNonOk], rfl, by decide, ?_⟩
  intro s2 h
  rw [reaches_empty_pending rfl h]
  decide

/-- C2, amended.  A rejected rig fetch leaves the pipeline permanently
in `WaitLoadModel` with nothing logged (the fetch chain has no catch
handler); a non-OK rig fetch is logged but substitutes an empty buffer
and proceeds into the expression stage and beyond, so later stages are
entered with fallback data even though the pipeline still never becomes
renderable. -/
theorem C2_rig_failure_amended (st : ModelSetting) (env : Pending → FetchOutcome)
    (hm : st.modelFileName ≠ "")
    (henv1 : env Pending.manifest = FetchOutcome.ok true) :
    (env Pending.modelFile = FetchOutcome.rejected →
      runSteps st env startState [0, 0] =
          some { pipeWaitModel with pending := [] } ∧
        ({ pipeWaitModel with pending := [] } : PipelineState).state =
          LoadStep.WaitLoadModel ∧
        ({ pipeWaitModel with pending := [] } : PipelineState).logs = [] ∧
        NeverCompletes st env { pipeWaitModel with pending := [] }) ∧
    (env Pending.modelFile = FetchOutcome.nonOk →
      runSteps st env startState [0, 0] = some (pipeAfterRigNonOk st) ∧
        ("Failed to load file " ++ st.modelFileName) ∈
          (pipeAfterRigNonOk st).logs ∧
        (pipeAfterRigNonOk st).state ≠ LoadStep.WaitLoadModel ∧
        (pipeAfterRigNonOk st).state ≠ LoadStep.LoadModel) := by
  constructor
  · intro hrej
    refine ⟨?_, rfl, rfl, ?_⟩
    · rw [runSteps_cons st env _ 0 [0] _ (step_manifest_ok st env hm henv1),
        runSteps_cons st env _ 0 [] _ (step_model_rejected st env hrej)]
      rfl
    · intro s2 h
      rw [reaches_empty_pending rfl h]
      decide
  · intro hnon
    refine ⟨?_, ?_, ?_, ?_⟩
    · rw [runSteps_cons st env _ 0 [0] _ (step_manifest_ok st env hm henv1),
        runSteps_cons st env _ 0 [] _ (step_model_nonOk st env hnon)]
      rfl
    · exact cascade_logs _ _ _ (by simp)
    · unfold pipeAfterRigNonOk
      rcases cascade_state st
        { pipeWaitModel with
          pending := []
          state := LoadStep.LoadExpression
          modelMatrixPresent := false
          logs := ["Failed to load file " ++ st.modelFileName] }
        with h | h | h | h | h | h | h <;> rw [h] <;> decide
    · unfold pipeAfterRigNonOk
      rcases cascade_state st
        { pipeWaitModel with
          pending := []
          state := LoadStep.LoadExpression
          modelMatrixPresent := false
          logs := ["Failed to load file " ++ st.modelFileName] }
        with h | h | h | h | h | h | h <;> rw [h] <;> decide

/-- C2 witness: the amended theorem applied to the concrete zero-count
manifest with a non-OK rig fetch. -/
theorem C2_rig_failure_witness :
    runSteps stZero envRigNonOk startState [0, 0] =
        some (pipeAfterRigNonOk stZero) ∧
      ("Failed to load file " ++ stZero.modelFileName) ∈
        (pipeAfterRigNonOk stZero).logs ∧
      (pipeAfterRigNonOk stZero).state ≠ LoadStep.WaitLoadModel ∧
      (pipeAfterRigNonOk stZero).state ≠ LoadStep.LoadModel :=
  (C2_rig_failure_amended stZero envRigNonOk (by decide) rfl).2 rfl

/-- C3, counterexample to the stated claim: in the expression fan-out
stage a failed sub-fetch (non-OK response, empty-buffer fallback)
INCREMENTS the completed counter and registers a null entry — it does
not decrement the stage total — and the stage transition fires on that
incremented counter. -/
theorem C3_fanout_counterexample :
    runSteps stExprTex envExprNonOk startState [0, 0, 0] = some pipeExprFail ∧
      pipeExprFail.expressionCount = 1 ∧
      pipeExprFail.expressions = [("smile", false)] ∧
      pipeExprFail.state = LoadStep.WaitLoadTexture := by
  exact ⟨by rfl, rfl, rfl, rfl⟩

/-- C3, amended.  In the motion fan-out stage, a delivered sub-fetch
whose content is unusable (non-OK response or invalid bytes) decrements
the stage total `_allMotionCount` instead of incrementing the completed
count, and the successor (texture) stage is still entered once the
completed count meets the reduced total; a usable sub-fetch increments
the completed count.  In the expression stage, however, every delivered
sub-fetch — failed or not — increments the completed counter (the total
is a fixed manifest count).  A rejected promise (network error) runs no
handler in either stage, leaving every counter untouched, so that stage
stalls rather than completing with a reduced total. -/
theorem C3_fanout_failure_amended (st : ModelSetting)
    (env : Pending → FetchOutcome) (s : PipelineState) (g : String) (i j : ℕ) :
    (env (Pending.motion g i) = FetchOutcome.nonOk ∨
        env (Pending.motion g i) = FetchOutcome.ok false →
      (handleCallback st env (Pending.motion g i) s).allMotionCount =
          s.allMotionCount - 1 ∧
      (handleCallback st env (Pending.motion g i) s).motionCount =
          s.motionCount ∧
      ((s.motionCount : ℤ) ≥ s.allMotionCount - 1 →
        (handleCallback st env (Pending.motion g i) s).state =
          LoadStep.WaitLoadTexture)) ∧
    (env (Pending.motion g i) = FetchOutcome.ok true →
      (handleCallback st env (Pending.motion g i) s).motionCount =
          s.motionCount + 1 ∧
      (handleCallback st env (Pending.motion g i) s).allMotionCount =
          s.allMotionCount) ∧
    (env (Pending.motion g i) = FetchOutcome.rejected →
      handleCallback st env (Pending.motion g i) s = s) ∧
    (env (Pending.expr j) ≠ FetchOutcome.rejected →
      (handleCallback st env (Pending.expr j) s).expressionCount =
        s.expressionCount + 1) ∧
    (env (Pending.expr j) = FetchOutcome.rejected →
      handleCallback st env (Pending.expr j) s = s) := by
  refine ⟨?_, ?_, ?_, ?_, ?_⟩
  · intro ho
    rw [handleCallback]
    rcases ho with h | h <;>
      rw [h] <;>
      simp only [show engineAccepts FetchOutcome.nonOk = false from rfl,
        show engineAccepts (FetchOutcome.ok false) = false from rfl,
        Bool.false_eq_true, if_false] <;>
      refine ⟨?_, ?_, ?_⟩
    · split_ifs with hc
      · unfold setupTextures
        split_ifs <;> simp
      · simp
    · split_ifs with hc
      · unfold setupTextures
        split_ifs <;> simp
      · simp
    · intro hth
      rw [if_pos (by omega)]
      unfold setupTextures
      simp
    · split_ifs with hc
      · unfold setupTextures
        split_ifs <;> simp
      · simp
    · split_ifs with hc
      · unfold setupTextures
        split_ifs <;> simp
      · simp
    · intro hth
      rw [if_pos (by omega)]
      unfold setupTextures
      simp
  · intro ho
    rw [handleCallback, ho]
    simp only [show engineAccepts (FetchOutcome.ok true) = true from rfl,
      eq_self_iff_true, if_true]
    constructor
    · split_ifs with hc
      · unfold setupTextures
        split_ifs <;> simp
      · simp
    · split_ifs with hc
      · unfold setupTextures
        split_ifs <;> simp
      · simp
  · intro ho
    rw [handleCallback, ho]
  · intro ho
    rw [handleCallback]
    rcases hv : env (Pending.expr j) with _ | _ | b
    · exact absurd hv ho
    · dsimp only
      split_ifs with h1
      · rw [cascadePhysics_expressionCount]
      · rfl
    · dsimp only
      split_ifs with h1
      · rw [cascadePhysics_expressionCount]
      · rfl
  · intro ho
    rw [handleCallback, ho]

/-- C3 witness: the amended theorem applied to a concrete motion-stage
state whose in-flight fetch resolves non-OK, with the inner threshold
hypothesis discharged. -/
theorem C3_fanout_failure_witness :
    (handleCallback stExprTex envMotionNonOk (Pending.motion "Idle" 0)
        pipeMotionWait).allMotionCount = pipeMotionWait.allMotionCount - 1 ∧
      (handleCallback stExprTex envMotionNonOk (Pending.motion "Idle" 0)
        pipeMotionWait).motionCount = pipeMotionWait.motionCount ∧
      (handleCallback stExprTex envMotionNonOk (Pending.motion "Idle" 0)
        pipeMotionWait).state = LoadStep.WaitLoadTexture :=
  ⟨((C3_fanout_failure_amended stExprTex envMotionNonOk pipeMotionWait
      "Idle" 0 0).1 (Or.inl rfl)).1,
   ((C3_fanout_failure_amended stExprTex envMotionNonOk pipeMotionWait
      "Idle" 0 0).1 (Or.inl rfl)).2.1,
   ((C3_fanout_failure_amended stExprTex envMotionNonOk pipeMotionWait
      "Idle" 0 0).1 (Or.inl rfl)).2.2 (by decide)⟩

/-- C9, confirmed.  Before the pipeline reaches `CompleteSetup` the
per-frame tick mutates nothing — `update` returns the state unchanged,
issuing no parameter writes and accruing no time — and `draw` issues no
draw call. -/
theorem C9_no_tick_before_ready (s : FrameState) (dt : ℚ)
    (h : s.state ≠ LoadStep.CompleteSetup) :
    FrameState.update s dt = s ∧ FrameState.draw s = false := by
  constructor
  · unfold FrameState.update
    rw [if_pos h]
  · unfold FrameState.draw
    split_ifs with h1
    · rfl
    · simp [h]

/-- C9 witness: a model stuck waiting for textures neither updates nor
draws. -/
theorem C9_no_tick_before_ready_witness :
    FrameState.update frameLoading 1 = frameLoading ∧
      FrameState.draw frameLoading = false :=
  C9_no_tick_before_ready frameLoading 1 (by decide)

/-- C7, counterexample to the stated claim: two acquires for the same
key issued while the first decode is still in flight both take the miss
path (the record is only registered at decode completion), so after
both decodes complete the cache holds TWO records for that one key. -/
theorem C7_texture_cache_counterexample :
    countKey (texRun texInit [TexEvent.acquire "a.png" true,
        TexEvent.acquire "a.png" true, TexEvent.complete 0,
        TexEvent.complete 0]).textures "a.png" true = 2 := by
  rfl

/-- C7, amended.  When no decode is in flight, one acquire-and-complete
round preserves the at-most-one-record-per-key invariant; and an acquire
for a key whose record is already registered issues a fresh decode whose
completion registers nothing and delivers the already-registered record.
Only overlapping same-key acquires (both in flight at once, see the
counterexample) can register a duplicate. -/
theorem C7_texture_cache_amended (s : TexManState) (f : String) (p : Bool)
    (hinv : ∀ f2 p2, countKey s.textures f2 p2 ≤ 1)
    (hnone : s.decodes = []) :
    (∀ f2 p2, countKey
        (texRun s [TexEvent.acquire f p, TexEvent.complete 0]).textures
        f2 p2 ≤ 1) ∧
    (∀ t, s.textures.find?
        (fun t2 => t2.fileName == f && t2.usePremultply == p) = some t →
      onDecodeLoad (createTextureFromPngFile s f p) 0 =
        some ({ s with decodes := [] }, t)) := by
  constructor
  · intro f2 p2
    simp only [texRun, createTextureFromPngFile]
    by_cases hany : s.textures.any
        (fun t => t.fileName == f && t.usePremultply == p) = true
    · rw [if_pos hany]
      unfold onDecodeLoad
      rw [hnone]
      simp only [List.nil_append, List.get?, List.eraseIdx]
      simp only [if_true]
      rcases hf : s.textures.find?
          (fun t => t.fileName == f && t.usePremultply == p) with _ | t <;>
        rw [hf] <;> exact hinv f2 p2
    · rw [if_neg hany]
      unfold onDecodeLoad
      rw [hnone]
      simp only [List.nil_append, List.get?, List.eraseIdx]
      rw [if_neg (by simp)]
      unfold countKey
      rw [List.filter_append]
      simp only [List.length_append]
      by_cases hmatch : ((⟨f, p⟩ : TextureInfo).fileName == f2 &&
          (⟨f, p⟩ : TextureInfo).usePremultply == p2) = true
      · have hf2 : f2 = f := by
          have h2 := (Bool.and_eq_true _ _).mp hmatch
          exact (beq_iff_eq.mp h2.1).symm
        have hp2 : p2 = p := by
          have h2 := (Bool.and_eq_true _ _).mp hmatch
          exact (beq_iff_eq.mp h2.2).symm
        subst hf2 hp2
        have hzero : (s.textures.filter
            (fun t => t.fileName == f2 && t.usePremultply == p2)).length = 0 := by
          rw [List.length_eq_zero, List.filter_eq_nil_iff]
          intro a ha hpa
          exact hany (List.any_eq_true.mpr ⟨a, ha, hpa⟩)
        rw [hzero]
        simp [hmatch]
      · have hone : (List.filter
            (fun t => t.fileName == f2 && t.usePremultply == p2)
            [(⟨f, p⟩ : TextureInfo)]).length = 0 := by
          simp only [List.filter]
          rw [Bool.not_eq_true] at hmatch
          rw [hmatch]
          rfl
        rw [hone]
        simpa using hinv f2 p2
  · intro t hfind
    have hpred : (t.fileName == f && t.usePremultply == p) = true := by
      have h2 := List.find?_some hfind
      simpa using h2
    have hmem : t ∈ s.textures := List.mem_of_find?_eq_some hfind
    have hany : s.textures.any
        (fun t2 => t2.fileName == f && t2.usePremultply == p) = true :=
      List.any_eq_true.mpr ⟨t, hmem, hpred⟩
    unfold createTextureFromPngFile
    rw [if_pos hany]
    unfold onDecodeLoad
    rw [hnone]
    simp only [List.nil_append, List.get?, List.eraseIdx]
    simp only [if_true]
    rw [hfind]

/-- C7 witness: the amended theorem applied to a cache already holding
the key, including the hit-delivery conclusion at the registered
record. -/
theorem C7_texture_cache_witness :
    countKey (texRun (⟨[⟨"a.png", true⟩], []⟩ : TexManState)
        [TexEvent.acquire "a.png" true, TexEvent.complete 0]).textures
      "a.png" true ≤ 1 ∧
    onDecodeLoad (createTextureFromPngFile
        (⟨[⟨"a.png", true⟩], []⟩ : TexManState) "a.png" true) 0 =
      some (⟨[⟨"a.png", true⟩], []⟩, ⟨"a.png", true⟩) :=
  ⟨(C7_texture_cache_amended ⟨[⟨"a.png", true⟩], []⟩ "a.png" true
      (fun f2 p2 => (List.length_filter_le _ _).trans (by norm_num)) rfl).1
      "a.png" true,
   (C7_texture_cache_amended ⟨[⟨"a.png", true⟩], []⟩ "a.png" true
      (fun f2 p2 => (List.length_filter_le _ _).trans (by norm_num)) rfl).2
      ⟨"a.png", true⟩ rfl⟩

/-- C8, confirmed (the TouchManager anchor store is modelled from the
specification since its source file is absent).  On pointer-move while
captured, the drag vector forwarded to the model is the model-space
projection of the anchor as it was BEFORE the move, and the anchor then
holds the new scaled position; on pointer-up the captured flag is
cleared, the drag vector becomes exactly (0, 0), and the hit test runs
at the model-space projection of the release point. -/
theorem C8_pointer_drag_and_tap (v : ViewEnv) (s : PointerState)
    (px py qx qy : ℚ) (hc : s.captured = true) :
    ((onPointMoved v s px py).drag =
        (v.transformViewX s.touch.lastX, v.transformViewY s.touch.lastY) ∧
      (onPointMoved v s px py).touch.lastX =
        (px - v.offsetLeft) * v.devicePixelRatio ∧
      (onPointMoved v s px py).touch.lastY =
        (py - v.offsetTop) * v.devicePixelRatio) ∧
    ((onPointEnded v s qx qy).captured = false ∧
      (onPointEnded v s qx qy).drag = (0, 0) ∧
      (onPointEnded v s qx qy).tapAt =
        some (v.transformViewX ((qx - v.offsetLeft) * v.devicePixelRatio),
          v.transformViewY ((qy - v.offsetTop) * v.devicePixelRatio))) := by
  constructor
  · unfold onPointMoved
    rw [if_neg (by rw [hc]; simp)]
    exact ⟨rfl, rfl, rfl⟩
  · exact ⟨rfl, rfl, rfl⟩

/-- C8 witness: the theorem applied to a concrete captured state and
view environment. -/
theorem C8_pointer_drag_and_tap_witness :
    ((onPointMoved viewEnv1 pointerS1 5 5).drag =
        (viewEnv1.transformViewX pointerS1.touch.lastX,
          viewEnv1.transformViewY pointerS1.touch.lastY) ∧
      (onPointMoved viewEnv1 pointerS1 5 5).touch.lastX =
        (5 - viewEnv1.offsetLeft) * viewEnv1.devicePixelRatio ∧
      (onPointMoved viewEnv1 pointerS1 5 5).touch.lastY =
        (5 - viewEnv1.offsetTop) * viewEnv1.devicePixelRatio) ∧
    ((onPointEnded viewEnv1 pointerS1 7 8).captured = false ∧
      (onPointEnded viewEnv1 pointerS1 7 8).drag = (0, 0) ∧
      (onPointEnded viewEnv1 pointerS1 7 8).tapAt =
        some (viewEnv1.transformViewX
            ((7 - viewEnv1.offsetLeft) * viewEnv1.devicePixelRatio),
          viewEnv1.transformViewY
            ((8 - viewEnv1.offsetTop) * viewEnv1.devicePixelRatio))) :=
  C8_pointer_drag_and_tap viewEnv1 pointerS1 5 5 7 8 rfl

/-- C10, confirmed.  `changeScene` releases every held model before
pushing the single freshly constructed instance, so right after any
`changeScene` call the manager holds exactly one model — the new one,
which (given fresh construction stamps) is none of the previously held
instances. -/
theorem C10_change_scene_single_model (s : ManagerState) (index : ℕ) :
    (changeScene s index).models = [s.nextId] ∧
      (changeScene s index).models.length = 1 ∧
      (changeScene s index).sceneIndex = index ∧
      ((∀ m ∈ s.models, m < s.nextId) →
        ∀ m2 ∈ (changeScene s index).models, m2 ∉ s.models) := by
  refine ⟨rfl, rfl, rfl, ?_⟩
  intro hfresh m2 hm2
  simp only [changeScene, releaseAllModel, List.nil_append,
    List.mem_singleton] at hm2
  subst hm2
  intro hmem
  exact absurd (hfresh _ hmem) (lt_irrefl _)

/-- C10 witness: the theorem applied to a manager holding one stale
model. -/
theorem C10_change_scene_witness :
    (changeScene ⟨[3], 0, 7⟩ 2).models = [7] ∧
      (changeScene ⟨[3], 0, 7⟩ 2).models.length = 1 ∧
      (changeScene ⟨[3], 0, 7⟩ 2).sceneIndex = 2 :=
  ⟨(C10_change_scene_single_model ⟨[3], 0, 7⟩ 2).1,
   (C10_change_scene_single_model ⟨[3], 0, 7⟩ 2).2.1,
   (C10_change_scene_single_model ⟨[3], 0, 7⟩ 2).2.2.1⟩

end Live2d
